import Mathlib

/-!
Shallow embedding of `src/fetch.py` (the restrip orchestration engine).

Modelling conventions:
* JSON-shaped dynamic Python values (dicts / lists / scalars) are the
  inductive type `Value`; dicts are insertion-ordered association lists,
  matching CPython dict semantics (assignment to an existing key keeps its
  position, a new key is appended; `dict.update` applies assignments in
  order).
* Exceptions become the `Except Err` monad.  A Python statement that
  raises maps to `.error e`; `map_nested` applied to a scalar leaves the
  local variable `iterator` unbound, which we embed as `.error
  .unboundLocal`.  `KeyError` raised by `find` on a missing secret path is
  `.error .secretNotFound`; other `KeyError`s are `.error .keyError` and
  `TypeError`s are `.error .typeError`.
* `deepcopy` followed by in-place mutation of the copy is embedded as a
  pure function returning the new value: the argument is never changed.
  The one genuine in-place mutation of a *shared* object — `fetch`
  aliasing `api["params"]` / `api["headers"]` into the request and then
  calling `dict.update` on them — is made explicit: `buildRequest`
  returns the updated `Api` alongside the request, and the run loop
  threads it.
* External collaborators are a parameter record `Ext`: the `jq` query
  engine (`jq.all`), `urllib.parse.urljoin`, and the network.  The k-th
  network call (a global counter over the run) returns body `ext.page k`
  with success status `ext.ok k`; `response.raise_for_status()` is the
  status check.  Requests actually handed to `httpx` are recorded in
  order in the `sent` trace of the state.
* Numbers are modelled as `Int` (TOML / JSON integers; ages and `maxage`
  compare identically over `Int`).
-/

namespace Restrip

/-- Dynamic Python/JSON values: dicts, lists and scalars. -/
inductive Value where
  | null : Value
  | bool : Bool → Value
  | num : Int → Value
  | str : String → Value
  | arr : List Value → Value
  | obj : List (String × Value) → Value

/-- Embedded Python exceptions / abnormal outcomes. -/
inductive Err where
  | unboundLocal : Err
  | secretNotFound : Err
  | keyError : Err
  | typeError : Err
  | httpStatus : Err
  | outOfFuel : Err
  deriving DecidableEq, Repr

/-- Magic marker `_MAGIC_JQ = "!jq"`. -/
def MAGIC_JQ : String := "!jq"

/-- Magic marker `_MAGIC_SECRET = "!secret"`. -/
def MAGIC_SECRET : String := "!secret"

/-- Default cache age `_MAXAGE_DEF = 86400`. -/
def MAXAGE_DEF : Int := 86400

/-! Python string primitives, implemented structurally over `List Char`
so that they compute inside the kernel (the library versions are
compiled by well-founded recursion and do not reduce). -/

/-- `s.startswith(pre)` on character lists. -/
def startsWithL : List Char → List Char → Bool
  | _, [] => true
  | [], _ :: _ => false
  | c :: cs, p :: ps => c = p && startsWithL cs ps

/-- Python substring test `pat in s` on character lists. -/
def containsL : List Char → List Char → Bool
  | [], pat => startsWithL [] pat
  | c :: rest, pat => startsWithL (c :: rest) pat || containsL rest pat

/-- One fuel-counted step per character: `s.replace(pat, rep)` for a
non-empty pattern (every marker here is non-empty), replacing each
non-overlapping occurrence left to right. -/
def replaceGo (pat rep : List Char) : Nat → List Char → List Char
  | 0, s => s
  | _ + 1, [] => []
  | fuel + 1, c :: cs =>
      if startsWithL (c :: cs) pat then
        rep ++ replaceGo pat rep fuel ((c :: cs).drop pat.length)
      else
        c :: replaceGo pat rep fuel cs

/-- Python whitespace as `str.strip()` removes it. -/
def pyIsSpace (c : Char) : Bool :=
  c = ' ' || c = '\t' || c = '\n' || c = '\r' ||
    c = Char.ofNat 11 || c = Char.ofNat 12

/-- `s.strip()` on character lists. -/
def stripL (s : List Char) : List Char :=
  ((s.dropWhile pyIsSpace).reverse.dropWhile pyIsSpace).reverse

/-- `element.split(".")` on character lists (Python semantics:
`"".split(".") == [""]`, separators at the ends produce empty pieces). -/
def splitDotsL : List Char → List (List Char)
  | [] => [[]]
  | c :: cs =>
      if c = '.' then [] :: splitDotsL cs
      else
        match splitDotsL cs with
        | seg :: segs => (c :: seg) :: segs
        | [] => [[c]]

/-- Python substring test `pat in s`. -/
def pyContains (s pat : String) : Bool :=
  containsL s.data pat.data

/-- Python `s.replace(pat, rep)` (non-empty pattern). -/
def pyReplace (s pat rep : String) : String :=
  ⟨replaceGo pat.data rep.data s.data.length s.data⟩

/-- Python `s.strip()`. -/
def pyStrip (s : String) : String :=
  ⟨stripL s.data⟩

/-- Python `s.startswith(pre)`. -/
def pyStartsWith (s pre : String) : Bool :=
  startsWithL s.data pre.data

/-- Python `s[n:]` (character slicing). -/
def pyDrop (s : String) (n : Nat) : String :=
  ⟨s.data.drop n⟩

/-- Python `element.split(".")`. -/
def pySplitDots (s : String) : List String :=
  (splitDotsL s.data).map (fun cs => ⟨cs⟩)

/-- Ordered-dict lookup (`d[k]` on an association list, as `Option`). -/
def lookupA {α : Type} : List (String × α) → String → Option α
  | [], _ => none
  | (k, v) :: rest, key => if k = key then some v else lookupA rest key

/-- Ordered-dict assignment `d[k] = v`: an existing key keeps its
position, a new key is appended at the end (CPython dict semantics). -/
def setA {α : Type} : List (String × α) → String → α → List (String × α)
  | [], key, v => [(key, v)]
  | (k, w) :: rest, key, v =>
      if k = key then (k, v) :: rest else (k, w) :: setA rest key v

/-- `d1.update(d2)`: assign every entry of `d2` into `d1`, in order. -/
def dictUpdate {α : Type} (d1 d2 : List (String × α)) : List (String × α) :=
  d2.foldl (fun acc kv => setA acc kv.1 kv.2) d1

mutual

/-- `map_nested(obj, f)` from the source, value-level result of the
in-place mutation.  On a non-dict, non-list argument the local
`iterator` is never assigned and the `for` raises `UnboundLocalError`. -/
def map_nested (f : Value → Except Err Value) : Value → Except Err Value
  | .obj kvs => do pure (.obj (← mapPairs f kvs))
  | .arr vs => do pure (.arr (← mapList f vs))
  | .null => .error .unboundLocal
  | .bool _ => .error .unboundLocal
  | .num _ => .error .unboundLocal
  | .str _ => .error .unboundLocal

/-- Body of the `for` loop of `map_nested` at one child: containers are
recursed into, every other value is replaced by `f`'s output (the
`else` branch is spelled out per scalar constructor). -/
def mapChild (f : Value → Except Err Value) : Value → Except Err Value
  | .obj kvs => do pure (.obj (← mapPairs f kvs))
  | .arr vs => do pure (.arr (← mapList f vs))
  | .null => f .null
  | .bool b => f (.bool b)
  | .num n => f (.num n)
  | .str s => f (.str s)

def mapPairs (f : Value → Except Err Value) :
    List (String × Value) → Except Err (List (String × Value))
  | [] => pure []
  | (k, v) :: rest => do pure ((k, ← mapChild f v) :: (← mapPairs f rest))

def mapList (f : Value → Except Err Value) :
    List Value → Except Err (List Value)
  | [] => pure []
  | v :: rest => do pure ((← mapChild f v) :: (← mapList f rest))

end

/-- `find(element, d)`: fold `operator.getitem` over the dot-separated
path segments.  A missing key raises (`SecretNotFound` role); indexing a
non-dict raises a type error. -/
def find (element : String) (d : Value) : Except Err Value :=
  (pySplitDots element).foldlM
    (fun acc seg =>
      match acc with
      | .obj kvs =>
          match lookupA kvs seg with
          | some v => .ok v
          | none => .error .secretNotFound
      | _ => .error .typeError)
    d

/-- The leaf transform of `reveal`: a string containing the secret
marker has every occurrence of the marker removed, the remainder is
stripped and looked up in the secret store; everything else passes
through. -/
def replace_secret (secrets : Value) (v : Value) : Except Err Value :=
  match v with
  | .str s =>
      if pyContains s MAGIC_SECRET then
        find (pyStrip (pyReplace s MAGIC_SECRET "")) secrets
      else
        .ok (.str s)
  | .null => .ok .null
  | .bool b => .ok (.bool b)
  | .num n => .ok (.num n)
  | .arr vs => .ok (.arr vs)
  | .obj kvs => .ok (.obj kvs)

/-- `reveal(unit, secrets)`: deep-copy the unit and replace secret
leaves (the copy is the returned value; the argument is untouched). -/
def reveal (secrets : Value) (unit : Value) : Except Err Value :=
  map_nested (replace_secret secrets) unit

/-- The cross-action data store (the module-global `data` dict),
keyed by action id alone. -/
abbrev Store := List (String × Value)

/-- The leaf transform of `prepare`: a string starting with the jq
marker is evaluated (`jq.all`) against the data store; a one-element
result list is unwrapped, any other length stays a list.  Other leaves
pass through. -/
def eval_jq (jqAll : String → Store → List Value) (store : Store)
    (v : Value) : Value :=
  match v with
  | .str s =>
      if pyStartsWith s MAGIC_JQ then
        match jqAll (pyStrip (pyDrop s MAGIC_JQ.length)) store with
        | [w] => w
        | [] => .arr []
        | w1 :: w2 :: rest => .arr (w1 :: w2 :: rest)
      else .str s
  | .null => .null
  | .bool b => .bool b
  | .num n => .num n
  | .arr vs => .arr vs
  | .obj kvs => .obj kvs

/-- `prepare(request)`: deep-copy and resolve every jq-marked leaf
against the current data store. -/
def prepare (jqAll : String → Store → List Value) (store : Store)
    (request : Value) : Except Err Value :=
  map_nested (fun v => .ok (eval_jq jqAll store v)) request

/-! ### Shape predicates used to state the claims -/

/-- A value is a container (dict or list) as `isinstance` tests it. -/
def Value.isContainer : Value → Bool
  | .obj _ => true
  | .arr _ => true
  | .null => false
  | .bool _ => false
  | .num _ => false
  | .str _ => false

/-- A leaf carries neither the secret marker (substring test, as in
`reveal`) nor the jq marker (prefix test, as in `prepare`). -/
def unmarked : Value → Bool
  | .str s => !(pyContains s MAGIC_SECRET) && !(pyStartsWith s MAGIC_JQ)
  | .null => true
  | .bool _ => true
  | .num _ => true
  | .arr _ => true
  | .obj _ => true

mutual

/-- Every non-container leaf of the value satisfies `p`. -/
def allScalars (p : Value → Bool) : Value → Bool
  | .obj kvs => allScalarsPairs p kvs
  | .arr vs => allScalarsList p vs
  | .null => p .null
  | .bool b => p (.bool b)
  | .num n => p (.num n)
  | .str s => p (.str s)

def allScalarsPairs (p : Value → Bool) : List (String × Value) → Bool
  | [] => true
  | kv :: rest => allScalars p kv.2 && allScalarsPairs p rest

def allScalarsList (p : Value → Bool) : List Value → Bool
  | [] => true
  | v :: rest => allScalars p v && allScalarsList p rest

end

mutual

/-- The Value Walker as §4.1 of the spec words it, for comparison with
`map_nested`: produce a structurally identical copy in which every
non-container leaf — a bare scalar input included — is replaced by the
transform's output, containers being traversed recursively with their
shape preserved. -/
def valueWalkerSpec (f : Value → Value) : Value → Value
  | .obj kvs => .obj (valueWalkerSpecPairs f kvs)
  | .arr vs => .arr (valueWalkerSpecList f vs)
  | .null => f .null
  | .bool b => f (.bool b)
  | .num n => f (.num n)
  | .str s => f (.str s)

def valueWalkerSpecPairs (f : Value → Value) :
    List (String × Value) → List (String × Value)
  | [] => []
  | kv :: rest => (kv.1, valueWalkerSpec f kv.2) :: valueWalkerSpecPairs f rest

def valueWalkerSpecList (f : Value → Value) : List Value → List Value
  | [] => []
  | v :: rest => valueWalkerSpec f v :: valueWalkerSpecList f rest

end

/-! ### The action executor (`fetch`, `restore`, `run`) -/

/-- The `api` table of a loaded unit: base URL plus optional default
query parameters and headers (`load_unit` fills in a json content-type
header when the file has none, but `fetch` re-tests presence, so both
stay optional here). -/
structure Api where
  base : String
  params : Option (List (String × Value))
  headers : Option (List (String × Value))

/-- One `action.<id>` table of a loaded unit. -/
structure Action where
  method : String
  endpoint : String
  params : Option (List (String × Value))
  headers : Option (List (String × Value))
  json : Option Value
  maxage : Option Int
  paginate : Option Value

/-- External collaborators: the jq engine (`jq.all`), `urljoin`, and the
network.  The k-th network call of the run (a global counter) returns
body `page k` and succeeds iff `ok k`; `raise_for_status` consults
`ok`.  GET and POST are externalized identically. -/
structure Ext where
  jqAll : String → Store → List Value
  urljoin : String → String → String
  page : Nat → Value
  ok : Nat → Bool

/-- Mutable run state: the global `data` store, the network-call
counter, and the trace of prepared requests handed to `httpx`. -/
structure St where
  store : Store
  calls : Nat
  sent : List Value

/-- `d[key]` on a `Value`: `KeyError` when the key is absent,
`TypeError` when the value is not a dict. -/
def objGetE (v : Value) (key : String) : Except Err Value :=
  match v with
  | .obj kvs =>
      match lookupA kvs key with
      | some w => .ok w
      | none => .error .keyError
  | _ => .error .typeError

/-- Python `key in d` (raises on a non-dict). -/
def objHasKey (v : Value) (key : String) : Except Err Bool :=
  match v with
  | .obj kvs => .ok (lookupA kvs key).isSome
  | _ => .error .typeError

/-- `d[key] = w` on a `Value` dict. -/
def objSetE (v : Value) (key : String) (w : Value) : Except Err Value :=
  match v with
  | .obj kvs => .ok (.obj (setA kvs key w))
  | _ => .error .typeError

/-- `d.update(o)` on `Value` dicts. -/
def objUpdateE (v o : Value) : Except Err Value :=
  match v, o with
  | .obj d, .obj e => .ok (.obj (dictUpdate d e))
  | _, _ => .error .typeError

/-- A value expected to be a list (`+` concatenation operand). -/
def asArr : Value → Except Err (List Value)
  | .arr l => .ok l
  | _ => .error .typeError

/-- A value expected to be a string. -/
def asStr : Value → Except Err String
  | .str s => .ok s
  | _ => .error .typeError

/-- A value expected to be an integer. -/
def asInt : Value → Except Err Int
  | .num n => .ok n
  | _ => .error .typeError

/-- `data[name]` with `KeyError` on a missing entry. -/
def storeGetE (store : Store) (name : String) : Except Err Value :=
  match lookupA store name with
  | some v => .ok v
  | none => .error .keyError

/-- `request[key].update(ov)` on the request under construction: a
missing key makes `defaultdict(dict)` create a fresh `{}` first; a
non-dict value would raise. -/
def reqUpdateField (kvs : List (String × Value)) (key : String)
    (ov : List (String × Value)) : Except Err (List (String × Value)) :=
  match lookupA kvs key with
  | some (.obj d) => .ok (setA kvs key (.obj (dictUpdate d ov)))
  | some _ => .error .typeError
  | none => .ok (setA kvs key (.obj (dictUpdate [] ov)))

/-- Request construction of `fetch` (source lines 112-125).
`request["params"] = api["params"]` stores a reference to the api's own
dict, so the later `request["params"].update(action["params"])` mutates
the api in place (likewise for headers); the updated `Api` is returned
next to the request value and threaded by the run loop.  Key creation
order follows the source statements. -/
def buildRequest (urljoin : String → String → String) (api : Api)
    (action : Action) : Except Err (Value × Api) := do
  let kvs := [("url", Value.str (urljoin api.base action.endpoint))]
  let kvs := match api.params with
    | some ap => setA kvs "params" (Value.obj ap)
    | none => kvs
  let kvs := match api.headers with
    | some ah => setA kvs "headers" (Value.obj ah)
    | none => kvs
  let kvs ← match action.params with
    | some cp => reqUpdateField kvs "params" cp
    | none => pure kvs
  let kvs ← match action.headers with
    | some ch => reqUpdateField kvs "headers" ch
    | none => pure kvs
  let kvs := match action.json with
    | some j => setA kvs "json" j
    | none => kvs
  let apiParams := match api.params, action.params with
    | some ap, some cp => some (dictUpdate ap cp)
    | _, _ => api.params
  let apiHeaders := match api.headers, action.headers with
    | some ah, some ch => some (dictUpdate ah ch)
    | _, _ => api.headers
  pure (Value.obj kvs, { api with params := apiParams, headers := apiHeaders })

/-- `request["params"][p] = idx` (source line 161): the deep-copied
request is still a `defaultdict(dict)`, so a missing `"params"` key is
created as `{}` first. -/
def setParamE (request : Value) (p : String) (idx : Int) :
    Except Err Value :=
  match request with
  | .obj kvs =>
      match lookupA kvs "params" with
      | some (.obj ps) => .ok (.obj (setA kvs "params" (.obj (setA ps p (.num idx)))))
      | some _ => .error .typeError
      | none => .ok (.obj (setA kvs "params" (.obj [(p, .num idx)])))
  | _ => .error .typeError

/-- The `while True` loop of `fetch` (source lines 127-162), with an
explicit fuel so the recursion is well-defined; `.error .outOfFuel`
marks fuel exhaustion and never corresponds to a completed Python
execution.  Each iteration: re-`prepare` the current request against
the current store, issue the network call, commit page 0, and — when
the action paginates — re-`prepare` the pagination spec, merge later
pages, advance the page index and either stop (`page_index >= max`) or
inject the new index into the request's params and loop. -/
def fetchLoop (ext : Ext) (name : String) (action : Action) :
    Nat → Value → Int → St → Except Err (Value × St)
  | 0, _, _, _ => .error .outOfFuel
  | fuel + 1, request0, pageIndex, st0 => do
      let request ← prepare ext.jqAll st0.store request0
      let k := st0.calls
      let st1 : St := { st0 with calls := k + 1, sent := st0.sent ++ [request] }
      if ext.ok k = false then .error .httpStatus else do
      let result := ext.page k
      let st2 : St :=
        if pageIndex = 0 then { st1 with store := setA st1.store name result } else st1
      match action.paginate with
      | none => do
          let v ← storeGetE st2.store name
          pure (v, st2)
      | some pag => do
          let pagination ← prepare ext.jqAll st2.store pag
          let st3 ←
            if pageIndex > 0 then do
              let g ← asStr (← objGetE pagination "merge")
              let acc ← storeGetE st2.store name
              let prevL ← asArr (← objGetE acc g)
              let newL ← asArr (← objGetE result g)
              let result2 ← objSetE result g (.arr (prevL ++ newL))
              let acc2 ← objUpdateE acc result2
              pure { st2 with store := setA st2.store name acc2 }
            else pure st2
          let hasInc ← objHasKey pagination "increment"
          let inc ← if hasInc then do asInt (← objGetE pagination "increment") else pure 1
          let pageIndex2 := pageIndex + inc
          let mx ← asInt (← objGetE pagination "max")
          if pageIndex2 ≥ mx then do
            let v ← storeGetE st3.store name
            pure (v, st3)
          else do
            let p ← asStr (← objGetE pagination "param")
            let request2 ← setParamE request p pageIndex2
            fetchLoop ext name action fuel request2 pageIndex2 st3

/-- `fetch(name, api, action)`: build the request (mutating the api's
own maps through the alias, hence the returned `Api`), then run the
pagination loop starting at page index 0. -/
def fetch (ext : Ext) (fuel : Nat) (name : String) (api : Api)
    (action : Action) (st : St) : Except Err (Value × Api × St) := do
  let (request, api2) ← buildRequest ext.urljoin api action
  let (v, st2) ← fetchLoop ext name action fuel request 0 st
  pure (v, api2, st2)

/-- `restore(name, cachefile)`: load the cached JSON into the data
store under the action id (file reading externalized: `content` is the
parsed file). -/
def restore (name : String) (content : Value) (store : Store) : Store :=
  setA store name content

/-- One iteration of `run`'s per-action loop (source lines 183-210).
`cache` is the state of `data/<unit>/<id>.json`: `none` when the file
is missing, `some (mtime, content)` otherwise; `now` is `time.time()`.
The returned `Option Value` is the JSON written back to the cache file
(`none` when nothing is written).  The branch `idx == len(actions)` is
the source's own (unreachable) guard, kept as written. -/
def runAction (ext : Ext) (now : Int) (fuel : Nat)
    (cache : Option (Int × Value)) (idx total : Nat) (api : Api)
    (actionId : String) (action : Action) (st : St) :
    Except Err (Api × St × Option Value) :=
  let maxAge := match action.maxage with
    | some m => m
    | none => MAXAGE_DEF
  let doFetch : Except Err (Api × St × Option Value) := do
    let (resp, api2, st2) ← fetch ext fuel actionId api action st
    pure (api2, st2, some resp)
  match cache with
  | some (mtime, content) =>
      let age := now - mtime
      if age ≤ maxAge then
        if idx = total then pure (api, st, none)
        else pure (api, { st with store := restore actionId content st.store }, none)
      else doFetch
  | none => doFetch

/-- A loaded unit as `run` consumes it: the api table, the flow list
(`unit["api"]["flow"]`) and the action table (`unit["action"]`). -/
structure UnitCfg where
  api : Api
  flow : List String
  actions : List (String × Action)

/-- `for idx, action_id in enumerate(actions)`: walk the flow in order,
threading the (mutable) api and run state; `unit["action"][action_id]`
raises on a flow entry without an action. -/
def runFlow (ext : Ext) (now : Int) (fuel : Nat)
    (cache : String → Option (Int × Value))
    (actions : List (String × Action)) (total : Nat) :
    List String → Nat → Api → St → Except Err (Api × St)
  | [], _, api, st => pure (api, st)
  | actionId :: rest, idx, api, st => do
      let action ← match lookupA actions actionId with
        | some a => pure a
        | none => .error .keyError
      let (api2, st2, _written) ←
        runAction ext now fuel (cache actionId) idx total api actionId action st
      runFlow ext now fuel cache actions total rest (idx + 1) api2 st2

/-- Execute one unit: its whole flow, starting at index 0. -/
def runUnit (ext : Ext) (now : Int) (fuel : Nat)
    (cache : String → String → Option (Int × Value))
    (unitname : String) (u : UnitCfg) (st : St) : Except Err St := do
  let (_, st2) ←
    runFlow ext now fuel (cache unitname) u.actions u.flow.length u.flow 0 u.api st
  pure st2

/-- `run`: execute the configured units in order.  The `data` store is
threaded from unit to unit without ever being cleared. -/
def runUnits (ext : Ext) (now : Int) (fuel : Nat)
    (cache : String → String → Option (Int × Value)) :
    List (String × UnitCfg) → St → Except Err St
  | [], st => pure st
  | (n, u) :: us, st => do
      runUnits ext now fuel cache us (← runUnit ext now fuel cache n u st)

/-- All action ids a list of units can write (their flow entries). -/
def flowIds (us : List (String × UnitCfg)) : List String :=
  (us.map (fun nu => nu.2.flow)).flatten

/-! ### A concrete external world used by several scenarios

A jq query `.seed` whose answer changes once action `a0` has committed
a result, and a two-page endpoint matching the spec's own pagination
example. -/

/-- `jq.all(".seed", data)` yields `[10]` before action `a0` is in the
data store and `[20]` afterwards; every other query yields `[]`. -/
def seedQuery : String → Store → List Value := fun q st =>
  if q = ".seed" then
    (if (lookupA st "a0").isSome then [.num 20] else [.num 10])
  else []

/-- Page 0 is `items: [1, 2], total: 2`; every later page is
`items: [3, 4], total: 2`. -/
def seedPage : Nat → Value := fun k =>
  if k = 0 then .obj [("items", .arr [.num 1, .num 2]), ("total", .num 2)]
  else .obj [("items", .arr [.num 3, .num 4]), ("total", .num 2)]

/-- The assembled external world: every response succeeds. -/
def seedExt : Ext :=
  { jqAll := seedQuery
    urljoin := fun b e => b ++ e
    page := seedPage
    ok := fun _ => true }

/-- An api whose default query parameter is the templated `!jq .seed`. -/
def seedApi : Api :=
  { base := "http://x/"
    params := some [("q", .str "!jq .seed")]
    headers := some [("h", .str "v")] }

/-- A pagination spec: cursor parameter `page`, merge key `items`,
implicit increment, `max = 2`. -/
def pageSpec : Value :=
  .obj [("param", .str "page"), ("merge", .str "items"), ("max", .num 2)]

/-- A paginating GET action on endpoint `e`. -/
def seedAction : Action :=
  { method := "get", endpoint := "e", params := none, headers := none,
    json := none, maxage := none, paginate := some pageSpec }

/-- A minimal api: base URL only. -/
def plainApi : Api := { base := "b", params := none, headers := none }

/-- A minimal GET action: endpoint only. -/
def plainAction : Action :=
  { method := "get"
    endpoint := "e"
    params := none
    headers := none
    json := none
    maxage := none
    paginate := none }

/-- A minimal external world: empty query results, empty pages, every
response a success. -/
def plainExt : Ext :=
  { jqAll := fun _ _ => []
    urljoin := fun b e => b ++ e
    page := fun _ => .obj []
    ok := fun _ => true }

/-! ## Generic lemmas about the walker -/

/-- Structural induction for `Value` exposing membership in the nested
lists. -/
theorem Value.indOn (P : Value → Prop)
    (hnull : P .null) (hbool : ∀ b, P (.bool b)) (hnum : ∀ n, P (.num n))
    (hstr : ∀ s, P (.str s))
    (harr : ∀ vs, (∀ v ∈ vs, P v) → P (.arr vs))
    (hobj : ∀ kvs, (∀ kv ∈ kvs, P kv.2) → P (.obj kvs)) :
    ∀ v, P v
  | .null => hnull
  | .bool b => hbool b
  | .num n => hnum n
  | .str s => hstr s
  | .arr vs => harr vs (fun v hv =>
      Value.indOn P hnull hbool hnum hstr harr hobj v)
  | .obj kvs => hobj kvs (fun kv hkv =>
      Value.indOn P hnull hbool hnum hstr harr hobj kv.2)
termination_by v => sizeOf v
decreasing_by
  · have h1 := List.sizeOf_lt_of_mem hv
    simp only [Value.arr.sizeOf_spec]
    omega
  · have h1 := List.sizeOf_lt_of_mem hkv
    have h2 : sizeOf kv.2 < sizeOf kv := by
      obtain ⟨a, b⟩ := kv
      simp only [Prod.mk.sizeOf_spec]
      omega
    simp only [Value.obj.sizeOf_spec]
    omega

theorem valueWalkerSpecList_eq (f : Value → Value) :
    ∀ vs : List Value, valueWalkerSpecList f vs = vs.map (valueWalkerSpec f)
  | [] => rfl
  | v :: rest => by
      simp only [valueWalkerSpecList, List.map_cons, valueWalkerSpecList_eq f rest]

theorem valueWalkerSpecPairs_eq (f : Value → Value) :
    ∀ kvs : List (String × Value),
      valueWalkerSpecPairs f kvs = kvs.map (fun kv => (kv.1, valueWalkerSpec f kv.2))
  | [] => rfl
  | kv :: rest => by
      simp only [valueWalkerSpecPairs, List.map_cons, valueWalkerSpecPairs_eq f rest]

theorem mapList_eq_ok (f : Value → Except Err Value) (w : Value → Value) :
    ∀ vs : List Value, (∀ v ∈ vs, mapChild f v = .ok (w v)) →
      mapList f vs = .ok (vs.map w)
  | [], _ => rfl
  | v :: rest, h => by
      have hv := h v (by simp)
      have hr := mapList_eq_ok f w rest (fun x hx => h x (by simp [hx]))
      simp only [mapList, hv, hr, List.map_cons, bind, Except.bind, pure, Except.pure]

theorem mapPairs_eq_ok (f : Value → Except Err Value) (w : Value → Value) :
    ∀ kvs : List (String × Value), (∀ kv ∈ kvs, mapChild f kv.2 = .ok (w kv.2)) →
      mapPairs f kvs = .ok (kvs.map (fun kv => (kv.1, w kv.2)))
  | [], _ => rfl
  | kv :: rest, h => by
      have hv := h kv (by simp)
      have hr := mapPairs_eq_ok f w rest (fun x hx => h x (by simp [hx]))
      simp only [mapPairs, hv, hr, List.map_cons, bind, Except.bind, pure, Except.pure]

theorem mapList_ok_self (f : Value → Except Err Value) :
    ∀ vs : List Value, (∀ v ∈ vs, mapChild f v = .ok v) →
      mapList f vs = .ok vs
  | [], _ => rfl
  | v :: rest, h => by
      have hv := h v (by simp)
      have hr := mapList_ok_self f rest (fun x hx => h x (by simp [hx]))
      simp only [mapList, hv, hr, bind, Except.bind, pure, Except.pure]

theorem mapPairs_ok_self (f : Value → Except Err Value) :
    ∀ kvs : List (String × Value), (∀ kv ∈ kvs, mapChild f kv.2 = .ok kv.2) →
      mapPairs f kvs = .ok kvs
  | [], _ => rfl
  | kv :: rest, h => by
      have hv := h kv (by simp)
      have hr := mapPairs_ok_self f rest (fun x hx => h x (by simp [hx]))
      simp only [mapPairs, hv, hr, bind, Except.bind, pure, Except.pure]

/-- With a pure leaf transform, `map_nested`'s recursion computes
exactly the walker the spec describes, on every child value. -/
theorem mapChild_pure (g : Value → Value) :
    ∀ v, mapChild (fun x => .ok (g x)) v = .ok (valueWalkerSpec g v) := by
  intro v
  induction v using Value.indOn with
  | hnull => simp [mapChild, valueWalkerSpec]
  | hbool b => simp [mapChild, valueWalkerSpec]
  | hnum n => simp [mapChild, valueWalkerSpec]
  | hstr s => simp [mapChild, valueWalkerSpec]
  | harr vs ih =>
      have h := mapList_eq_ok _ (valueWalkerSpec g) vs ih
      simp only [mapChild, valueWalkerSpec, h, valueWalkerSpecList_eq,
        bind, Except.bind, pure, Except.pure]
  | hobj kvs ih =>
      have h := mapPairs_eq_ok _ (valueWalkerSpec g) kvs ih
      simp only [mapChild, valueWalkerSpec, h, valueWalkerSpecPairs_eq,
        bind, Except.bind, pure, Except.pure]

theorem allScalarsList_mem {p : Value → Bool} :
    ∀ vs : List Value, allScalarsList p vs = true →
      ∀ v ∈ vs, allScalars p v = true
  | [], _, v, hv => absurd hv (by simp)
  | w :: rest, h, v, hv => by
      rw [allScalarsList, Bool.and_eq_true] at h
      rcases List.mem_cons.mp hv with rfl | hmem
      · exact h.1
      · exact allScalarsList_mem rest h.2 v hmem

theorem allScalarsPairs_mem {p : Value → Bool} :
    ∀ kvs : List (String × Value), allScalarsPairs p kvs = true →
      ∀ kv ∈ kvs, allScalars p kv.2 = true
  | [], _, kv, hkv => absurd hkv (by simp)
  | w :: rest, h, kv, hkv => by
      rw [allScalarsPairs, Bool.and_eq_true] at h
      rcases List.mem_cons.mp hkv with rfl | hmem
      · exact h.1
      · exact allScalarsPairs_mem rest h.2 kv hmem

/-- A transform that fixes every leaf allowed by `p` makes the walker a
no-op on any value all of whose leaves `p` allows. -/
theorem mapChild_ok_self (f : Value → Except Err Value) (p : Value → Bool)
    (hf : ∀ x, Value.isContainer x = false → p x = true → f x = .ok x) :
    ∀ v, allScalars p v = true → mapChild f v = .ok v := by
  intro v
  induction v using Value.indOn with
  | hnull => intro h; rw [allScalars] at h; simpa [mapChild] using hf .null rfl h
  | hbool b => intro h; rw [allScalars] at h; simpa [mapChild] using hf (.bool b) rfl h
  | hnum n => intro h; rw [allScalars] at h; simpa [mapChild] using hf (.num n) rfl h
  | hstr s => intro h; rw [allScalars] at h; simpa [mapChild] using hf (.str s) rfl h
  | harr vs ih =>
      intro h
      rw [allScalars] at h
      have hl := mapList_ok_self f vs
        (fun v hv => ih v hv (allScalarsList_mem vs h v hv))
      simp only [mapChild, hl, bind, Except.bind, pure, Except.pure]
  | hobj kvs ih =>
      intro h
      rw [allScalars] at h
      have hl := mapPairs_ok_self f kvs
        (fun kv hkv => ih kv hkv (allScalarsPairs_mem kvs h kv hkv))
      simp only [mapChild, hl, bind, Except.bind, pure, Except.pure]

/-- On containers, `map_nested` agrees with the child traversal (only a
bare scalar argument distinguishes them). -/
theorem map_nested_container (f : Value → Except Err Value) (v : Value)
    (hc : Value.isContainer v = true) : map_nested f v = mapChild f v := by
  cases v <;> simp_all [map_nested, mapChild, Value.isContainer]

theorem eval_jq_unmarked (jqAll : String → Store → List Value)
    (store : Store) (v : Value) (h : unmarked v = true) :
    eval_jq jqAll store v = v := by
  cases v <;> simp_all [eval_jq, unmarked]

theorem replace_secret_unmarked (secrets v : Value) (h : unmarked v = true) :
    replace_secret secrets v = .ok v := by
  cases v <;> simp_all [replace_secret, unmarked]

/-- `prepare` on any container input succeeds and computes the spec's
walker applied to the jq leaf transform. -/
theorem prepare_ok (jqAll : String → Store → List Value) (store : Store)
    (v : Value) (hc : Value.isContainer v = true) :
    prepare jqAll store v = .ok (valueWalkerSpec (eval_jq jqAll store) v) := by
  rw [prepare, map_nested_container _ _ hc]
  exact mapChild_pure _ v

/-- `prepare` is the identity on a container with no jq-marked leaf. -/
theorem prepare_self (jqAll : String → Store → List Value) (store : Store)
    (v : Value) (hc : Value.isContainer v = true)
    (h : allScalars unmarked v = true) : prepare jqAll store v = .ok v := by
  rw [prepare, map_nested_container _ _ hc]
  exact mapChild_ok_self _ unmarked
    (fun x _ hx => by rw [eval_jq_unmarked jqAll store x hx]) v h

/-- `reveal` is the identity on a container with no secret-marked leaf. -/
theorem reveal_self (secrets v : Value) (hc : Value.isContainer v = true)
    (h : allScalars unmarked v = true) : reveal secrets v = .ok v := by
  rw [reveal, map_nested_container _ _ hc]
  exact mapChild_ok_self _ unmarked
    (fun x _ hx => replace_secret_unmarked secrets x hx) v h

/-! ## Dictionary and loop lemmas -/

theorem asStr_str (s : String) : asStr (.str s) = .ok s := rfl

theorem asArr_arr (l : List Value) : asArr (.arr l) = .ok l := rfl

theorem asInt_num (n : Int) : asInt (.num n) = .ok n := rfl

theorem objSetE_obj (kvs : List (String × Value)) (k : String) (w : Value) :
    objSetE (.obj kvs) k w = .ok (.obj (setA kvs k w)) := rfl

theorem objUpdateE_obj (d e : List (String × Value)) :
    objUpdateE (.obj d) (.obj e) = .ok (.obj (dictUpdate d e)) := rfl

theorem lookupA_setA_self {α : Type} (d : List (String × α)) (k : String) (v : α) :
    lookupA (setA d k v) k = some v := by
  induction d with
  | nil => simp [setA, lookupA]
  | cons kv rest ih =>
      obtain ⟨k2, w⟩ := kv
      by_cases h : k2 = k <;> simp [setA, h, lookupA, ih]

theorem lookupA_setA_ne {α : Type} (d : List (String × α)) (k id : String) (v : α)
    (h : id ≠ k) : lookupA (setA d k v) id = lookupA d id := by
  induction d with
  | nil => simp [setA, lookupA, Ne.symm h]
  | cons kv rest ih =>
      obtain ⟨k2, w⟩ := kv
      by_cases hk : k2 = k
      · subst hk
        simp [setA, lookupA, Ne.symm h]
      · simp [setA, hk, lookupA, ih]

/-- Two full iterations of the pagination loop against a marker-free
literal pagination spec (merge key `g`, `max = 2`, no `increment`,
cursor parameter `p`).  The first network call sends `r0`, the
iteration-0 resolution of the request template against the starting
store; the second call sends exactly `r0` with the page cursor
injected (`r1`): the loop re-`prepare`s the already resolved copy —
which, carrying no markers any more, is left unchanged — rather than
re-resolving the template.  The final store value concatenates the two
pages' lists at `g` (previous-then-new) and overlays the other fields
of the later page. -/
theorem fetchLoop_two_pages
    (ext : Ext) (name : String) (act : Action) (spec : Value)
    (g p : String) (o0 o1 : List (String × Value)) (l0 l1 : List Value)
    (st0 : St) (req0 r0 r1 : Value) (fuel : Nat)
    (hok : ∀ k, ext.ok k = true)
    (hpag : act.paginate = some spec)
    (hcont : spec.isContainer = true)
    (hunm : allScalars unmarked spec = true)
    (hmerge : objGetE spec "merge" = .ok (.str g))
    (hinc : objHasKey spec "increment" = .ok false)
    (hmax : objGetE spec "max" = .ok (.num 2))
    (hparam : objGetE spec "param" = .ok (.str p))
    (hp0 : ext.page st0.calls = .obj o0)
    (hp1 : ext.page (st0.calls + 1) = .obj o1)
    (hl0 : lookupA o0 g = some (.arr l0))
    (hl1 : lookupA o1 g = some (.arr l1))
    (hprep0 : prepare ext.jqAll st0.store req0 = .ok r0)
    (hinj : setParamE r0 p 1 = .ok r1)
    (hr1c : Value.isContainer r1 = true)
    (hr1u : allScalars unmarked r1 = true) :
    fetchLoop ext name act (fuel + 2) req0 0 st0 =
      .ok (.obj (dictUpdate o0 (setA o1 g (.arr (l0 ++ l1)))),
        { store := setA (setA st0.store name (.obj o0)) name
            (.obj (dictUpdate o0 (setA o1 g (.arr (l0 ++ l1)))))
          calls := st0.calls + 2
          sent := st0.sent ++ [r0, r1] }) := by
  have hspec : ∀ st : Store, prepare ext.jqAll st spec = .ok spec :=
    fun st => prepare_self ext.jqAll st spec hcont hunm
  have hprep1 : ∀ st : Store, prepare ext.jqAll st r1 = .ok r1 :=
    fun st => prepare_self ext.jqAll st r1 hr1c hr1u
  have hacc : lookupA (setA st0.store name (Value.obj o0)) name = some (.obj o0) :=
    lookupA_setA_self _ _ _
  have hg0 : objGetE (Value.obj o0) g = .ok (.arr l0) := by simp [objGetE, hl0]
  have hg1 : objGetE (Value.obj o1) g = .ok (.arr l1) := by simp [objGetE, hl1]
  have hsg1 : storeGetE (setA st0.store name (Value.obj o0)) name = .ok (.obj o0) := by
    simp [storeGetE, lookupA_setA_self]
  have hsg2 : ∀ v : Value,
      storeGetE (setA (setA st0.store name (Value.obj o0)) name v) name = .ok v :=
    fun v => by simp [storeGetE, lookupA_setA_self]
  show fetchLoop ext name act ((fuel + 1) + 1) req0 0 st0 = _
  simp +decide [fetchLoop, hprep0, hprep1, bind, Except.bind, hok, hpag, hp0, hp1,
    hspec, hinc, hmax, hmerge, hparam, hinj, hg0, hg1, hsg1, hsg2, asStr_str,
    asArr_arr, asInt_num, objSetE_obj, objUpdateE_obj, pure, Except.pure]

/-! ### Termination of the pagination loop -/

theorem ok_bind {α β : Type} (a : α) (f : α → Except Err β) :
    (Except.ok a >>= f) = f a := rfl

theorem error_bind {α β : Type} (e : Err) (f : α → Except Err β) :
    ((Except.error e : Except Err α) >>= f) = Except.error e := rfl

theorem bind_ne_oof {α β : Type} (e : Except Err α) (f : α → Except Err β)
    (he : e ≠ .error .outOfFuel) (hf : ∀ a, f a ≠ .error .outOfFuel) :
    (e >>= f) ≠ .error .outOfFuel := by
  cases e with
  | error err => simpa [bind, Except.bind] using he
  | ok a => simpa [bind, Except.bind] using hf a

theorem objGetE_ne_oof (v : Value) (k : String) :
    objGetE v k ≠ .error .outOfFuel := by
  unfold objGetE
  repeat' split
  all_goals simp

theorem objHasKey_ne_oof (v : Value) (k : String) :
    objHasKey v k ≠ .error .outOfFuel := by
  unfold objHasKey
  repeat' split
  all_goals simp

theorem asStr_ne_oof (v : Value) : asStr v ≠ .error .outOfFuel := by
  unfold asStr
  repeat' split
  all_goals simp

theorem asArr_ne_oof (v : Value) : asArr v ≠ .error .outOfFuel := by
  unfold asArr
  repeat' split
  all_goals simp

theorem asInt_ne_oof (v : Value) : asInt v ≠ .error .outOfFuel := by
  unfold asInt
  repeat' split
  all_goals simp

theorem storeGetE_ne_oof (store : Store) (name : String) :
    storeGetE store name ≠ .error .outOfFuel := by
  unfold storeGetE
  repeat' split
  all_goals simp

theorem objSetE_ne_oof (v : Value) (k : String) (w : Value) :
    objSetE v k w ≠ .error .outOfFuel := by
  unfold objSetE
  repeat' split
  all_goals simp

theorem objUpdateE_ne_oof (v o : Value) :
    objUpdateE v o ≠ .error .outOfFuel := by
  unfold objUpdateE
  repeat' split
  all_goals simp

theorem setParamE_ne_oof (request : Value) (p : String) (idx : Int) :
    setParamE request p idx ≠ .error .outOfFuel := by
  unfold setParamE
  repeat' split
  all_goals simp

theorem prepare_ne_oof (jqAll : String → Store → List Value) (store : Store)
    (v : Value) : prepare jqAll store v ≠ .error .outOfFuel := by
  cases hv : Value.isContainer v
  · cases v <;> simp_all [prepare, map_nested, Value.isContainer]
  · rw [prepare_ok _ _ _ hv]
    simp

/-- Enough fuel: with a marker-free literal pagination spec whose
resolved increment is a positive integer `i` (or absent, defaulting
to 1) and whose resolved bound is the integer `m`, the loop never
exhausts `fuel > (m - page_index).toNat` — every run of the source loop
reaches a `break` or raises after finitely many iterations. -/
theorem fetchLoop_enough_fuel
    (ext : Ext) (name : String) (act : Action) (spec : Value) (i m : Int)
    (hpag : act.paginate = some spec)
    (hcont : Value.isContainer spec = true)
    (hunm : allScalars unmarked spec = true)
    (hinc : (objHasKey spec "increment" = .ok false ∧ i = 1) ∨
      (objHasKey spec "increment" = .ok true ∧
        objGetE spec "increment" = .ok (.num i)))
    (hi : 1 ≤ i)
    (hmax : objGetE spec "max" = .ok (.num m)) :
    ∀ fuel (pageIndex : Int) (req : Value) (st : St),
      (m - pageIndex).toNat < fuel →
      fetchLoop ext name act fuel req pageIndex st ≠ .error .outOfFuel := by
  have hspec : ∀ st : Store, prepare ext.jqAll st spec = .ok spec :=
    fun st => prepare_self ext.jqAll st spec hcont hunm
  intro fuel
  induction fuel with
  | zero =>
      intro pageIndex req st h
      exact absurd h (by omega)
  | succ f ih =>
      intro pageIndex req st hfuel
      simp only [fetchLoop]
      refine bind_ne_oof _ _ (prepare_ne_oof _ _ _) (fun r => ?_)
      split
      · simp
      · simp only [hpag, hspec, ok_bind, pure_bind]
        split
        · refine bind_ne_oof _ _ (objGetE_ne_oof _ _) (fun x1 => ?_)
          refine bind_ne_oof _ _ (asStr_ne_oof _) (fun g => ?_)
          refine bind_ne_oof _ _ (storeGetE_ne_oof _ _) (fun acc => ?_)
          refine bind_ne_oof _ _ (objGetE_ne_oof _ _) (fun x2 => ?_)
          refine bind_ne_oof _ _ (asArr_ne_oof _) (fun prevL => ?_)
          refine bind_ne_oof _ _ (objGetE_ne_oof _ _) (fun x3 => ?_)
          refine bind_ne_oof _ _ (asArr_ne_oof _) (fun newL => ?_)
          refine bind_ne_oof _ _ (objSetE_ne_oof _ _ _) (fun result2 => ?_)
          refine bind_ne_oof _ _ (objUpdateE_ne_oof _ _) (fun acc2 => ?_)
          try simp only [pure_bind]
          rcases hinc with ⟨h1, hieq⟩ | ⟨h1, h2⟩
          · subst hieq
            simp only [h1, ok_bind, Bool.false_eq_true, if_false, pure_bind,
              hmax, asInt_num]
            split
            · exact bind_ne_oof _ _ (storeGetE_ne_oof _ _)
                (fun v => by simp [pure, Except.pure])
            · refine bind_ne_oof _ _ (objGetE_ne_oof _ _) (fun x4 => ?_)
              refine bind_ne_oof _ _ (asStr_ne_oof _) (fun p => ?_)
              refine bind_ne_oof _ _ (setParamE_ne_oof _ _ _) (fun req2 => ?_)
              rename_i hstop
              exact ih _ _ _ (by omega)
          · simp only [h1, h2, ok_bind, if_true, pure_bind, hmax, asInt_num]
            split
            · exact bind_ne_oof _ _ (storeGetE_ne_oof _ _)
                (fun v => by simp [pure, Except.pure])
            · refine bind_ne_oof _ _ (objGetE_ne_oof _ _) (fun x4 => ?_)
              refine bind_ne_oof _ _ (asStr_ne_oof _) (fun p => ?_)
              refine bind_ne_oof _ _ (setParamE_ne_oof _ _ _) (fun req2 => ?_)
              rename_i hstop
              exact ih _ _ _ (by omega)
        · rcases hinc with ⟨h1, hieq⟩ | ⟨h1, h2⟩
          · subst hieq
            simp only [h1, ok_bind, Bool.false_eq_true, if_false, pure_bind,
              hmax, asInt_num]
            split
            · exact bind_ne_oof _ _ (storeGetE_ne_oof _ _)
                (fun v => by simp [pure, Except.pure])
            · refine bind_ne_oof _ _ (objGetE_ne_oof _ _) (fun x4 => ?_)
              refine bind_ne_oof _ _ (asStr_ne_oof _) (fun p => ?_)
              refine bind_ne_oof _ _ (setParamE_ne_oof _ _ _) (fun req2 => ?_)
              rename_i hstop
              exact ih _ _ _ (by omega)
          · simp only [h1, h2, ok_bind, if_true, pure_bind, hmax, asInt_num]
            split
            · exact bind_ne_oof _ _ (storeGetE_ne_oof _ _)
                (fun v => by simp [pure, Except.pure])
            · refine bind_ne_oof _ _ (objGetE_ne_oof _ _) (fun x4 => ?_)
              refine bind_ne_oof _ _ (asStr_ne_oof _) (fun p => ?_)
              refine bind_ne_oof _ _ (setParamE_ne_oof _ _ _) (fun req2 => ?_)
              rename_i hstop
              exact ih _ _ _ (by omega)

/-! ### Store frame properties: each action writes only its own id -/

theorem bind_ok {α β : Type} {e : Except Err α} {f : α → Except Err β} {b : β}
    (h : (e >>= f) = .ok b) : ∃ a, e = .ok a ∧ f a = .ok b := by
  cases e with
  | error err => simp [bind, Except.bind] at h
  | ok a => exact ⟨a, rfl, by simpa [bind, Except.bind] using h⟩

/-- The pagination loop writes the data store only at key `name`. -/
theorem fetchLoop_store_frame (ext : Ext) (name : String) (act : Action) :
    ∀ (fuel : Nat) (req : Value) (pageIndex : Int) (st : St) (v : Value)
      (st2 : St),
      fetchLoop ext name act fuel req pageIndex st = .ok (v, st2) →
      ∀ id, id ≠ name → lookupA st2.store id = lookupA st.store id := by
  intro fuel
  induction fuel with
  | zero =>
      intro req pageIndex st v st2 h id hid
      simp [fetchLoop] at h
  | succ f ih =>
      intro req pageIndex st v st2 h id hid
      cases hpg : act.paginate with
      | none =>
          simp only [fetchLoop, hpg] at h
          obtain ⟨r, hr, h⟩ := bind_ok h
          repeat'
            first
            | (simp only [pure_bind] at h)
            | (obtain ⟨_, _, h⟩ := bind_ok h)
            | split_ifs at h
          all_goals
            first
            | exact Except.noConfusion h
            | exact (ih _ _ _ _ _ h id hid).trans (by simp [lookupA_setA_ne, hid])
            | (simp only [pure, Except.pure, Except.ok.injEq, Prod.mk.injEq] at h
               obtain ⟨h1, h2⟩ := h
               subst h2
               simp [lookupA_setA_ne, hid])
      | some pag =>
          simp only [fetchLoop, hpg] at h
          obtain ⟨r, hr, h⟩ := bind_ok h
          repeat'
            first
            | (simp only [pure_bind] at h)
            | (obtain ⟨_, _, h⟩ := bind_ok h)
            | split_ifs at h
          all_goals
            first
            | exact Except.noConfusion h
            | exact (ih _ _ _ _ _ h id hid).trans (by simp [lookupA_setA_ne, hid])
            | (simp only [pure, Except.pure, Except.ok.injEq, Prod.mk.injEq] at h
               obtain ⟨h1, h2⟩ := h
               subst h2
               simp [lookupA_setA_ne, hid])

/-- `fetch` writes the data store only at key `name`. -/
theorem fetch_store_frame (ext : Ext) (fuel : Nat) (name : String) (api : Api)
    (act : Action) (st : St) (v : Value) (api2 : Api) (st2 : St)
    (h : fetch ext fuel name api act st = .ok (v, api2, st2)) :
    ∀ id, id ≠ name → lookupA st2.store id = lookupA st.store id := by
  intro id hid
  unfold fetch at h
  obtain ⟨ra, hra, h⟩ := bind_ok h
  obtain ⟨request, api3⟩ := ra
  obtain ⟨rb, hrb, h⟩ := bind_ok h
  obtain ⟨v3, st3⟩ := rb
  simp only [pure, Except.pure, Except.ok.injEq, Prod.mk.injEq] at h
  obtain ⟨h1, h2, h3⟩ := h
  subst h3
  exact fetchLoop_store_frame ext name act _ _ _ _ _ _ hrb id hid

/-- One `run` action writes the data store only under its action id,
whether it restores or fetches. -/
theorem runAction_store_frame (ext : Ext) (now : Int) (fuel : Nat)
    (cache : Option (Int × Value)) (idx total : Nat) (api : Api)
    (actionId : String) (action : Action) (st : St) (api2 : Api) (st2 : St)
    (w : Option Value)
    (h : runAction ext now fuel cache idx total api actionId action st =
      .ok (api2, st2, w)) :
    ∀ id, id ≠ actionId → lookupA st2.store id = lookupA st.store id := by
  intro id hid
  unfold runAction at h
  cases hc : cache with
  | none =>
      simp only [hc] at h
      obtain ⟨rf, hrf, h⟩ := bind_ok h
      obtain ⟨v3, api3, st3⟩ := rf
      simp only [pure, Except.pure, Except.ok.injEq, Prod.mk.injEq] at h
      obtain ⟨h1, h2, h3⟩ := h
      subst h2
      exact fetch_store_frame ext fuel actionId api action st _ _ _ hrf id hid
  | some mc =>
      obtain ⟨mtime, content⟩ := mc
      simp only [hc] at h
      split_ifs at h
      · simp only [pure, Except.pure, Except.ok.injEq, Prod.mk.injEq] at h
        obtain ⟨h1, h2, h3⟩ := h
        subst h2
        rfl
      · simp only [pure, Except.pure, Except.ok.injEq, Prod.mk.injEq] at h
        obtain ⟨h1, h2, h3⟩ := h
        subst h2
        simp [restore, lookupA_setA_ne, hid]
      · obtain ⟨rf, hrf, h⟩ := bind_ok h
        obtain ⟨v3, api3, st3⟩ := rf
        simp only [pure, Except.pure, Except.ok.injEq, Prod.mk.injEq] at h
        obtain ⟨h1, h2, h3⟩ := h
        subst h2
        exact fetch_store_frame ext fuel actionId api action st _ _ _ hrf id hid

/-- A unit's flow writes the data store only under its flow's action
ids. -/
theorem runFlow_store_frame (ext : Ext) (now : Int) (fuel : Nat)
    (cache : String → Option (Int × Value))
    (actions : List (String × Action)) (total : Nat) :
    ∀ (flow : List String) (idx : Nat) (api : Api) (st : St) (api2 : Api)
      (st2 : St),
      runFlow ext now fuel cache actions total flow idx api st = .ok (api2, st2) →
      ∀ id, id ∉ flow → lookupA st2.store id = lookupA st.store id := by
  intro flow
  induction flow with
  | nil =>
      intro idx api st api2 st2 h id hmem
      unfold runFlow at h
      simp only [pure, Except.pure, Except.ok.injEq, Prod.mk.injEq] at h
      obtain ⟨h1, h2⟩ := h
      subst h2
      rfl
  | cons aId rest ihf =>
      intro idx api st api2 st2 h id hmem
      have hsplit : id ≠ aId ∧ id ∉ rest := by
        simpa [List.mem_cons, not_or] using hmem
      unfold runFlow at h
      cases hla : lookupA actions aId with
      | none =>
          simp only [hla, error_bind] at h
          exact Except.noConfusion h
      | some action =>
          simp only [hla, pure_bind] at h
          obtain ⟨ra, hra, h⟩ := bind_ok h
          obtain ⟨api3, st3, w3⟩ := ra
          have h1 := runAction_store_frame ext now fuel (cache aId) idx total api
            aId action st api3 st3 w3 hra id hsplit.1
          have h2 := ihf _ _ _ _ _ h id hsplit.2
          exact h2.trans h1

/-- `run` of a list of units leaves untouched every data-store entry
whose key is not an action id of some executed flow: the store is
threaded from unit to unit and never cleared. -/
theorem runUnits_store_frame (ext : Ext) (now : Int) (fuel : Nat)
    (cache : String → String → Option (Int × Value)) :
    ∀ (us : List (String × UnitCfg)) (st st2 : St),
      runUnits ext now fuel cache us st = .ok st2 →
      ∀ id, id ∉ flowIds us → lookupA st2.store id = lookupA st.store id := by
  intro us
  induction us with
  | nil =>
      intro st st2 h id hm
      unfold runUnits at h
      simp only [pure, Except.pure, Except.ok.injEq] at h
      subst h
      rfl
  | cons nu rest ihu =>
      intro st st2 h id hm
      obtain ⟨n, u⟩ := nu
      have hm2 : id ∉ u.flow ∧ id ∉ flowIds rest := by
        simpa [flowIds, List.mem_append, not_or] using hm
      unfold runUnits at h
      obtain ⟨st3, hst3, h⟩ := bind_ok h
      have h1 : lookupA st3.store id = lookupA st.store id := by
        unfold runUnit at hst3
        obtain ⟨rp, hrp, hst3x⟩ := bind_ok hst3
        obtain ⟨apiX, stX⟩ := rp
        simp only [pure, Except.pure, Except.ok.injEq] at hst3x
        subst hst3x
        exact runFlow_store_frame _ _ _ _ _ _ _ _ _ _ _ _ hrp id hm2.1
      have h2 := ihu _ _ h id hm2.2
      exact h2.trans h1

/-- Full evaluation of the two-page seed scenario: the template's
`!jq .seed` leaf resolves to `10` against the starting (empty) store;
the second request re-prepares the already resolved copy, so it still
carries `q = 10` with only the page cursor added, although the store
now holds action `a0`'s page-0 value; the two pages merge into
`items: [1, 2, 3, 4], total: 2`. -/
theorem seed_fetch_eval :
    fetch seedExt 5 "a0" seedApi seedAction ⟨[], 0, []⟩ =
      .ok (.obj [("items", .arr [.num 1, .num 2, .num 3, .num 4]), ("total", .num 2)],
        seedApi,
        { store := [("a0", .obj [("items", .arr [.num 1, .num 2, .num 3, .num 4]),
              ("total", .num 2)])]
          calls := 2
          sent := [.obj [("url", .str "http://x/e"),
              ("params", .obj [("q", .num 10)]),
              ("headers", .obj [("h", .str "v")])],
            .obj [("url", .str "http://x/e"),
              ("params", .obj [("q", .num 10), ("page", .num 1)]),
              ("headers", .obj [("h", .str "v")])]] }) := by
  simp +decide [fetch, fetchLoop, buildRequest, prepare, map_nested, mapPairs,
    mapList, mapChild, eval_jq, seedExt, seedQuery, seedPage, seedApi, seedAction,
    pageSpec, lookupA, setA, dictUpdate, reqUpdateField, objGetE, objHasKey,
    objSetE, objUpdateE, asArr, asStr, asInt, storeGetE, setParamE, MAGIC_JQ,
    pyStartsWith, pyStrip, pyDrop, bind, Except.bind, pure, Except.pure]

/-! ## Claims -/

/-- C6, counterexample: the claim says the Value Walker handles a bare
scalar input, but `map_nested` applied to a scalar never assigns its
`iterator` variable and raises (`UnboundLocalError`) — here even with
the identity leaf transform. -/
theorem C6_counterexample :
    map_nested (fun v => .ok v) (.str "x") = .error .unboundLocal := by
  simp [map_nested]

/-- C6, amended: over container inputs (objects and arrays) the Value
Walker is total and shape preserving: with any pure leaf transform it
terminates without raising and returns exactly the structurally
identical copy the spec describes (`valueWalkerSpec`), in which every
non-container leaf carries the transform's output and every container
keeps its shape; a bare scalar input, however, raises instead of being
handled. -/
theorem C6_walker_total_on_containers (f : Value → Value) (v : Value)
    (hc : Value.isContainer v = true) :
    map_nested (fun x => .ok (f x)) v = .ok (valueWalkerSpec f v) := by
  rw [map_nested_container _ _ hc]
  exact mapChild_pure f v

/-- C6 witness: the amended theorem applied at a small mixed object. -/
theorem C6_walker_witness :
    Value.isContainer (.obj [("a", .str "s"), ("b", .arr [.num 1])]) = true ∧
      map_nested (fun x => .ok (Value.num 9))
          (.obj [("a", .str "s"), ("b", .arr [.num 1])])
        = .ok (valueWalkerSpec (fun _ => Value.num 9)
            (.obj [("a", .str "s"), ("b", .arr [.num 1])])) :=
  ⟨by decide, C6_walker_total_on_containers (fun _ => Value.num 9) _ (by decide)⟩

/-- C7, counterexample: the scalar `5` contains no secret- and no
jq-marked string leaf, yet `reveal` and `prepare` both raise on it
(`map_nested` cannot take a bare scalar) instead of returning a value
equal to the input. -/
theorem C7_counterexample :
    unmarked (.num 5) = true ∧
      reveal (.obj []) (.num 5) = .error .unboundLocal ∧
      prepare (fun _ _ => []) [] (.num 5) = .error .unboundLocal := by
  refine ⟨by decide, ?_, ?_⟩
  · simp [reveal, map_nested]
  · simp [prepare, map_nested]

/-- C7, amended: for every *container* input with no secret-marked and
no jq-marked string leaf, secret resolution and expression resolution
both return the input unchanged — the embedding is pure exactly because
the source deep-copies before walking, so the argument value is never
modified; a bare scalar input instead raises. -/
theorem C7_resolution_noop (secrets : Value)
    (jqAll : String → Store → List Value) (store : Store) (v : Value)
    (hc : Value.isContainer v = true) (h : allScalars unmarked v = true) :
    reveal secrets v = .ok v ∧ prepare jqAll store v = .ok v :=
  ⟨reveal_self secrets v hc h, prepare_self jqAll store v hc h⟩

/-- C7 witness: the amended theorem at a marker-free object. -/
theorem C7_resolution_witness :
    Value.isContainer (.obj [("k", .str "plain"), ("l", .arr [.num 1])]) = true ∧
      allScalars unmarked (.obj [("k", .str "plain"), ("l", .arr [.num 1])]) = true ∧
      (reveal (.obj []) (.obj [("k", .str "plain"), ("l", .arr [.num 1])])
          = .ok (.obj [("k", .str "plain"), ("l", .arr [.num 1])]) ∧
        prepare (fun _ _ => []) [] (.obj [("k", .str "plain"), ("l", .arr [.num 1])])
          = .ok (.obj [("k", .str "plain"), ("l", .arr [.num 1])])) :=
  ⟨by decide,
   by simp +decide [allScalars, allScalarsPairs, allScalarsList, unmarked],
   C7_resolution_noop _ _ _ _ (by decide)
     (by simp +decide [allScalars, allScalarsPairs, allScalarsList, unmarked])⟩

/-- C8: the Expression Evaluator's unwrap law, read off the leaf
transform `eval_jq` that `prepare` applies at every string leaf: a
jq-marked leaf whose stripped query yields exactly one result is
replaced by that single value; a query yielding zero or at least two
results leaves the full result sequence; an unmarked string leaf passes
through unchanged. -/
theorem C8_expression_unwrap (jqAll : String → Store → List Value)
    (store : Store) :
    (∀ s q, pyStartsWith s MAGIC_JQ = true →
        pyStrip (pyDrop s MAGIC_JQ.length) = q →
        ((∀ v, jqAll q store = [v] → eval_jq jqAll store (.str s) = v) ∧
          (jqAll q store = [] → eval_jq jqAll store (.str s) = .arr []) ∧
          (∀ v1 v2 vs, jqAll q store = v1 :: v2 :: vs →
            eval_jq jqAll store (.str s) = .arr (v1 :: v2 :: vs)))) ∧
      (∀ s, pyStartsWith s MAGIC_JQ = false →
        eval_jq jqAll store (.str s) = .str s) := by
  constructor
  · intro s q hpre hq
    refine ⟨fun v hv => ?_, fun hv => ?_, fun v1 v2 vs hv => ?_⟩ <;>
      simp [eval_jq, hpre, hq, hv]
  · intro s h
    simp [eval_jq, h]

/-- C8 witness: a one-result query unwraps at a concrete leaf. -/
theorem C8_expression_witness :
    pyStartsWith "!jq .x" MAGIC_JQ = true ∧
      pyStrip (pyDrop "!jq .x" MAGIC_JQ.length) = ".x" ∧
      (fun q (_ : Store) => if q = ".x" then [Value.num 7] else []) ".x" [] = [Value.num 7] ∧
      eval_jq (fun q _ => if q = ".x" then [Value.num 7] else []) [] (.str "!jq .x") = .num 7 :=
  ⟨by decide, by decide, rfl,
   ((C8_expression_unwrap (fun q _ => if q = ".x" then [Value.num 7] else []) []).1
       "!jq .x" ".x" (by decide) (by decide)).1 (Value.num 7) rfl⟩

/-- C9: secret resolution replaces a marked leaf by the secret-store
value at the dot-separated path left after stripping the marker
(`!secret a.b` against `a: (b: X)` gives `X`), leaves unmarked string
leaves unchanged, and when any path segment is absent (`a.c`) `find`
raises `SecretNotFound`, which makes `reveal` of the whole unit fail
with no partial result — even though the unit's other leaf was
resolvable. -/
theorem C9_secret_resolution :
    (∀ secrets s, pyContains s MAGIC_SECRET = false →
        replace_secret secrets (.str s) = .ok (.str s)) ∧
      find "a.b" (.obj [("a", .obj [("b", .str "X")])]) = .ok (.str "X") ∧
      replace_secret (.obj [("a", .obj [("b", .str "X")])])
          (.str "!secret a.b") = .ok (.str "X") ∧
      find "a.c" (.obj [("a", .obj [("b", .str "X")])]) = .error .secretNotFound ∧
      reveal (.obj [("a", .obj [("b", .str "X")])])
          (.obj [("good", .str "!secret a.b"), ("bad", .str "!secret a.c")])
        = .error .secretNotFound := by
  refine ⟨fun secrets s h => by simp [replace_secret, h], ?_, ?_, ?_, ?_⟩
  · simp +decide [find, pySplitDots, splitDotsL, lookupA, List.foldlM,
      bind, Except.bind, pure, Except.pure]
  · simp +decide [replace_secret, pyContains, containsL, startsWithL, MAGIC_SECRET,
      find, pySplitDots, splitDotsL, pyStrip, stripL, pyReplace, replaceGo,
      pyIsSpace, lookupA, List.foldlM, bind, Except.bind, pure, Except.pure]
  · simp +decide [find, pySplitDots, splitDotsL, lookupA, List.foldlM,
      bind, Except.bind, pure, Except.pure]
  · simp +decide [reveal, map_nested, mapPairs, mapChild, replace_secret,
      pyContains, containsL, startsWithL, MAGIC_SECRET, find, pySplitDots,
      splitDotsL, pyStrip, stripL, pyReplace, replaceGo, pyIsSpace, lookupA,
      List.foldlM, bind, Except.bind, pure, Except.pure]

/-- C9 witness: the pass-through conjunct at a marker-free string. -/
theorem C9_secret_witness :
    pyContains "hello" MAGIC_SECRET = false ∧
      replace_secret .null (.str "hello") = .ok (.str "hello") :=
  ⟨by decide, C9_secret_resolution.1 .null "hello" (by decide)⟩

/-- C1, evaluated at the failing input: request construction stores a
reference to the api's own params/headers dicts and `dict.update`s them
in place.  With api defaults `params = (a: 1)`, `headers = (h: v)` and a
first action overriding `params = (b: 2)`, `headers = (k: 3)`, building
its request leaves the api itself holding `(a: 1, b: 2)` and
`(h: v, k: 3)` — the loaded unit is mutated, contradicting the claimed
frame property — and a second action with no overrides then builds a
request already carrying the first action's `b` and `k`; `fetch`
returns the same mutated api, which `run` threads to later actions. -/
theorem C1_api_mutated_by_merge :
    buildRequest (fun b e => b ++ e)
        { base := "u/", params := some [("a", .str "1")],
          headers := some [("h", .str "v")] }
        { method := "get", endpoint := "e", params := some [("b", .str "2")],
          headers := some [("k", .str "3")], json := none, maxage := none,
          paginate := none }
      = .ok (.obj [("url", .str "u/e"),
          ("params", .obj [("a", .str "1"), ("b", .str "2")]),
          ("headers", .obj [("h", .str "v"), ("k", .str "3")])],
        { base := "u/", params := some [("a", .str "1"), ("b", .str "2")],
          headers := some [("h", .str "v"), ("k", .str "3")] }) ∧
    buildRequest (fun b e => b ++ e)
        { base := "u/", params := some [("a", .str "1"), ("b", .str "2")],
          headers := some [("h", .str "v"), ("k", .str "3")] }
        { method := "get", endpoint := "e2", params := none, headers := none,
          json := none, maxage := none, paginate := none }
      = .ok (.obj [("url", .str "u/e2"),
          ("params", .obj [("a", .str "1"), ("b", .str "2")]),
          ("headers", .obj [("h", .str "v"), ("k", .str "3")])],
        { base := "u/", params := some [("a", .str "1"), ("b", .str "2")],
          headers := some [("h", .str "v"), ("k", .str "3")] }) ∧
    fetch plainExt 1 "x"
        { base := "u/", params := some [("a", .str "1")],
          headers := some [("h", .str "v")] }
        { method := "get", endpoint := "e", params := some [("b", .str "2")],
          headers := some [("k", .str "3")], json := none, maxage := none,
          paginate := none }
        ⟨[], 0, []⟩
      = .ok (.obj [],
        { base := "u/", params := some [("a", .str "1"), ("b", .str "2")],
          headers := some [("h", .str "v"), ("k", .str "3")] },
        { store := [("x", .obj [])]
          calls := 1
          sent := [.obj [("url", .str "u/e"),
              ("params", .obj [("a", .str "1"), ("b", .str "2")]),
              ("headers", .obj [("h", .str "v"), ("k", .str "3")])]] }) := by
  refine ⟨rfl, rfl, ?_⟩
  simp +decide [fetch, fetchLoop, buildRequest, prepare, map_nested, mapPairs,
    mapList, mapChild, eval_jq, plainExt, lookupA, setA, dictUpdate,
    reqUpdateField, objGetE, storeGetE, MAGIC_JQ, pyStartsWith,
    bind, Except.bind, pure, Except.pure]

/-- C2, counterexample: in the seed scenario the request template's
`!jq .seed` leaf is resolved only on iteration 0 (to `10`, the query's
answer against the starting store).  At the start of iteration 1 the
store holds `a0`'s page-0 result and the same query now answers `20`,
yet the second request sent still carries `q = 10` (plus the injected
cursor): the loop re-prepares its own resolved copy instead of
re-evaluating the template's marked leaf against the current store, so
the claimed per-iteration re-resolution of the request does not happen. -/
theorem C2_counterexample :
    fetch seedExt 5 "a0" seedApi seedAction ⟨[], 0, []⟩ =
      .ok (.obj [("items", .arr [.num 1, .num 2, .num 3, .num 4]), ("total", .num 2)],
        seedApi,
        { store := [("a0", .obj [("items", .arr [.num 1, .num 2, .num 3, .num 4]),
              ("total", .num 2)])]
          calls := 2
          sent := [.obj [("url", .str "http://x/e"),
              ("params", .obj [("q", .num 10)]),
              ("headers", .obj [("h", .str "v")])],
            .obj [("url", .str "http://x/e"),
              ("params", .obj [("q", .num 10), ("page", .num 1)]),
              ("headers", .obj [("h", .str "v")])]] }) ∧
      eval_jq seedExt.jqAll [("a0", seedPage 0)] (.str "!jq .seed") = .num 20 ∧
      Value.num 10 ≠ Value.num 20 := by
  refine ⟨seed_fetch_eval, ?_, ?_⟩
  · simp +decide [eval_jq, seedExt, seedQuery, seedPage, lookupA, MAGIC_JQ,
      pyStartsWith, pyStrip, pyDrop]
  · intro h
    cases h

/-- C2, amended: on the fetch path, expression resolution runs against
the Data Store as of iteration 0: the loop's later `prepare` calls act
on the previous iteration's already resolved request (its marked leaves
replaced by values), so — the resolved copy carrying no markers — every
later request equals the iteration-0 resolution with only the page
cursor injected, even if the underlying queries would now answer
differently; the Pagination Spec, by contrast, is re-prepared from its
template against the current store on every iteration.  Stated for a
marker-free literal spec with `max = 2`: the two requests sent are `r0`,
the iteration-0 resolution of the template, and `r0` with the cursor
injected. -/
theorem C2_stale_request_resolution
    (ext : Ext) (name : String) (act : Action) (spec : Value)
    (g p : String) (o0 o1 : List (String × Value)) (l0 l1 : List Value)
    (st0 : St) (req0 r0 r1 : Value) (fuel : Nat)
    (hok : ∀ k, ext.ok k = true)
    (hpag : act.paginate = some spec)
    (hcont : Value.isContainer spec = true)
    (hunm : allScalars unmarked spec = true)
    (hmerge : objGetE spec "merge" = .ok (.str g))
    (hinc : objHasKey spec "increment" = .ok false)
    (hmax : objGetE spec "max" = .ok (.num 2))
    (hparam : objGetE spec "param" = .ok (.str p))
    (hp0 : ext.page st0.calls = .obj o0)
    (hp1 : ext.page (st0.calls + 1) = .obj o1)
    (hl0 : lookupA o0 g = some (.arr l0))
    (hl1 : lookupA o1 g = some (.arr l1))
    (hprep0 : prepare ext.jqAll st0.store req0 = .ok r0)
    (hinj : setParamE r0 p 1 = .ok r1)
    (hr1c : Value.isContainer r1 = true)
    (hr1u : allScalars unmarked r1 = true) :
    ∃ vfin stfin,
      fetchLoop ext name act (fuel + 2) req0 0 st0 = .ok (vfin, stfin) ∧
        stfin.sent = st0.sent ++ [r0, r1] :=
  ⟨_, _, fetchLoop_two_pages ext name act spec g p o0 o1 l0 l1 st0 req0 r0 r1
    fuel hok hpag hcont hunm hmerge hinc hmax hparam hp0 hp1 hl0 hl1 hprep0
    hinj hr1c hr1u, rfl⟩

/-- C3: after page 0 is stored, the next page is merged by
concatenating the accumulated value's list at the merge key with the
new page's list, previous-then-new with no deduplication (`l0 ++ l1`),
and shallowly overlaying all of the new page's fields onto the
accumulated object (`dictUpdate`, later pages' non-list fields win);
the merged object is both the loop's return value and the Data Store
entry. -/
theorem C3_pagination_merge
    (ext : Ext) (name : String) (act : Action) (spec : Value)
    (g p : String) (o0 o1 : List (String × Value)) (l0 l1 : List Value)
    (st0 : St) (req0 r0 r1 : Value) (fuel : Nat)
    (hok : ∀ k, ext.ok k = true)
    (hpag : act.paginate = some spec)
    (hcont : Value.isContainer spec = true)
    (hunm : allScalars unmarked spec = true)
    (hmerge : objGetE spec "merge" = .ok (.str g))
    (hinc : objHasKey spec "increment" = .ok false)
    (hmax : objGetE spec "max" = .ok (.num 2))
    (hparam : objGetE spec "param" = .ok (.str p))
    (hp0 : ext.page st0.calls = .obj o0)
    (hp1 : ext.page (st0.calls + 1) = .obj o1)
    (hl0 : lookupA o0 g = some (.arr l0))
    (hl1 : lookupA o1 g = some (.arr l1))
    (hprep0 : prepare ext.jqAll st0.store req0 = .ok r0)
    (hinj : setParamE r0 p 1 = .ok r1)
    (hr1c : Value.isContainer r1 = true)
    (hr1u : allScalars unmarked r1 = true) :
    ∃ stfin,
      fetchLoop ext name act (fuel + 2) req0 0 st0 =
        .ok (.obj (dictUpdate o0 (setA o1 g (.arr (l0 ++ l1)))), stfin) ∧
        lookupA stfin.store name =
          some (.obj (dictUpdate o0 (setA o1 g (.arr (l0 ++ l1))))) :=
  ⟨_, fetchLoop_two_pages ext name act spec g p o0 o1 l0 l1 st0 req0 r0 r1
    fuel hok hpag hcont hunm hmerge hinc hmax hparam hp0 hp1 hl0 hl1 hprep0
    hinj hr1c hr1u, lookupA_setA_self _ _ _⟩

/-- C2 witness: the amended theorem at the seed scenario. -/
theorem C2_stale_request_witness :
    ∃ vfin stfin,
      fetchLoop seedExt "a0" seedAction (3 + 2)
          (.obj [("url", .str "http://x/e"),
            ("params", .obj [("q", .str "!jq .seed")]),
            ("headers", .obj [("h", .str "v")])])
          0 ⟨[], 0, []⟩ = .ok (vfin, stfin) ∧
        stfin.sent = [] ++
          [.obj [("url", .str "http://x/e"),
            ("params", .obj [("q", .num 10)]),
            ("headers", .obj [("h", .str "v")])],
          .obj [("url", .str "http://x/e"),
            ("params", .obj [("q", .num 10), ("page", .num 1)]),
            ("headers", .obj [("h", .str "v")])]] :=
  C2_stale_request_resolution seedExt "a0" seedAction pageSpec "items" "page"
    [("items", .arr [.num 1, .num 2]), ("total", .num 2)]
    [("items", .arr [.num 3, .num 4]), ("total", .num 2)]
    [.num 1, .num 2] [.num 3, .num 4] ⟨[], 0, []⟩
    (.obj [("url", .str "http://x/e"),
      ("params", .obj [("q", .str "!jq .seed")]),
      ("headers", .obj [("h", .str "v")])])
    (.obj [("url", .str "http://x/e"),
      ("params", .obj [("q", .num 10)]),
      ("headers", .obj [("h", .str "v")])])
    (.obj [("url", .str "http://x/e"),
      ("params", .obj [("q", .num 10), ("page", .num 1)]),
      ("headers", .obj [("h", .str "v")])])
    3 (fun _ => rfl) rfl (by decide)
    (by simp +decide [pageSpec, allScalars, allScalarsPairs, allScalarsList, unmarked])
    rfl rfl rfl rfl rfl rfl rfl rfl
    (by simp +decide [prepare, map_nested, mapPairs, mapList, mapChild, eval_jq,
      seedExt, seedQuery, MAGIC_JQ, pyStartsWith, pyStrip, pyDrop, lookupA,
      bind, Except.bind, pure, Except.pure])
    rfl (by decide)
    (by simp +decide [allScalars, allScalarsPairs, allScalarsList, unmarked])

/-- C3 witness: the merge theorem at the spec's own example — page 0
`items: [1, 2], total: 2` and page 1 `items: [3, 4], total: 2` merge to
`items: [1, 2, 3, 4], total: 2`, both as return value and as the Data
Store entry of `a0`. -/
theorem C3_pagination_witness :
    ∃ stfin,
      fetchLoop seedExt "a0" seedAction 5
          (.obj [("url", .str "http://x/e"),
            ("params", .obj [("q", .str "!jq .seed")]),
            ("headers", .obj [("h", .str "v")])])
          0 ⟨[], 0, []⟩ =
        .ok (.obj [("items", .arr [.num 1, .num 2, .num 3, .num 4]),
          ("total", .num 2)], stfin) ∧
        lookupA stfin.store "a0" =
          some (.obj [("items", .arr [.num 1, .num 2, .num 3, .num 4]),
            ("total", .num 2)]) := by
  have h := C3_pagination_merge seedExt "a0" seedAction pageSpec "items" "page"
    [("items", .arr [.num 1, .num 2]), ("total", .num 2)]
    [("items", .arr [.num 3, .num 4]), ("total", .num 2)]
    [.num 1, .num 2] [.num 3, .num 4] ⟨[], 0, []⟩
    (.obj [("url", .str "http://x/e"),
      ("params", .obj [("q", .str "!jq .seed")]),
      ("headers", .obj [("h", .str "v")])])
    (.obj [("url", .str "http://x/e"),
      ("params", .obj [("q", .num 10)]),
      ("headers", .obj [("h", .str "v")])])
    (.obj [("url", .str "http://x/e"),
      ("params", .obj [("q", .num 10), ("page", .num 1)]),
      ("headers", .obj [("h", .str "v")])])
    3 (fun _ => rfl) rfl (by decide)
    (by simp +decide [pageSpec, allScalars, allScalarsPairs, allScalarsList, unmarked])
    rfl rfl rfl rfl rfl rfl rfl rfl
    (by simp +decide [prepare, map_nested, mapPairs, mapList, mapChild, eval_jq,
      seedExt, seedQuery, MAGIC_JQ, pyStartsWith, pyStrip, pyDrop, lookupA,
      bind, Except.bind, pure, Except.pure])
    rfl (by decide)
    (by simp +decide [allScalars, allScalarsPairs, allScalarsList, unmarked])
  simpa +decide [dictUpdate, setA, lookupA] using h

/-- C4: termination and request counts of the pagination loop.
First, for any action whose (marker-free, literal) pagination spec
resolves to a positive integer increment `i` — or none, defaulting
to 1 — and an integer bound `m`, the loop never exhausts a fuel budget
above `(m - page_index).toNat`: every execution reaches a `break` or an
exception after finitely many iterations, because the page index
advances by `i ≥ 1` after each request and the loop stops as soon as it
reaches `max`.  Second, with `increment = 1` (absent) and `max = 2`
exactly 2 requests are issued, and the `sent` trace shows a third is
never sent.  Third, an action with no pagination spec issues exactly
one request. -/
theorem C4_pagination_termination :
    (∀ (ext : Ext) (name : String) (act : Action) (spec : Value) (i m : Int),
      act.paginate = some spec →
      Value.isContainer spec = true →
      allScalars unmarked spec = true →
      ((objHasKey spec "increment" = .ok false ∧ i = 1) ∨
        (objHasKey spec "increment" = .ok true ∧
          objGetE spec "increment" = .ok (.num i))) →
      1 ≤ i →
      objGetE spec "max" = .ok (.num m) →
      ∀ fuel (pageIndex : Int) (req : Value) (st : St),
        (m - pageIndex).toNat < fuel →
        fetchLoop ext name act fuel req pageIndex st ≠ .error .outOfFuel) ∧
    (∃ v api2 st2,
      fetch seedExt 5 "a0" seedApi seedAction ⟨[], 0, []⟩ = .ok (v, api2, st2) ∧
        st2.calls = 2 ∧ st2.sent.length = 2) ∧
    (∀ (ext : Ext) (name : String) (act : Action) (req r : Value) (st : St)
        (fuel : Nat),
      act.paginate = none →
      ext.ok st.calls = true →
      prepare ext.jqAll st.store req = .ok r →
      fetchLoop ext name act (fuel + 1) req 0 st =
        .ok (ext.page st.calls,
          { store := setA st.store name (ext.page st.calls)
            calls := st.calls + 1
            sent := st.sent ++ [r] })) := by
  refine ⟨fetchLoop_enough_fuel, ⟨_, _, _, seed_fetch_eval, rfl, rfl⟩, ?_⟩
  intro ext name act req r st fuel hnone hok2 hprep
  simp [fetchLoop, hprep, hok2, hnone, storeGetE, lookupA_setA_self,
    bind, Except.bind, pure, Except.pure]

/-- C4 witness: termination at the seed scenario (fuel 3 suffices for
`max = 2`), and the single-request conclusion at a pagination-free
action. -/
theorem C4_pagination_witness :
    (fetchLoop seedExt "a0" seedAction 3
        (.obj [("url", .str "http://x/e"),
          ("params", .obj [("q", .str "!jq .seed")]),
          ("headers", .obj [("h", .str "v")])])
        0 ⟨[], 0, []⟩ ≠ .error .outOfFuel) ∧
      fetchLoop plainExt "x"
          { method := "get", endpoint := "e", params := none, headers := none,
            json := none, maxage := none, paginate := none }
          (0 + 1) (.obj []) 0 ⟨[], 0, []⟩ =
        .ok (.obj [], { store := [("x", .obj [])], calls := 1, sent := [.obj []] }) := by
  constructor
  · exact C4_pagination_termination.1 seedExt "a0" seedAction pageSpec 1 2
      rfl (by decide)
      (by simp +decide [pageSpec, allScalars, allScalarsPairs, allScalarsList, unmarked])
      (Or.inl ⟨rfl, rfl⟩) (by decide) rfl 3 0 _ _ (by decide)
  · have h := C4_pagination_termination.2.2 plainExt "x"
      { method := "get", endpoint := "e", params := none, headers := none,
        json := none, maxage := none, paginate := none }
      (.obj []) (.obj []) ⟨[], 0, []⟩ 0 rfl rfl
      (by simp [prepare, map_nested, mapPairs, bind, Except.bind, pure, Except.pure])
    simpa [setA] using h

/-- C5: the cache decision of `run`, with threshold
`M = action.maxage` when present and 86400 otherwise.  When a cache
file exists with age `now - mtime ≤ M`, the action takes the restore
path: the cached JSON is loaded into the Data Store under the action id
and the network-call counter and sent trace are untouched; nothing is
written back.  When the entry is stale (`age > M`) the action behaves
exactly as with no cache file at all; and with no cache file the action
runs `fetch` and commits/writes its result — the fetch path.  (The
hypothesis `idx ≠ total` reflects the source's own dead
`idx == len(actions)` guard, true of every index `enumerate` yields.) -/
theorem C5_cache_freshness (ext : Ext) (now mtime : Int) (content : Value)
    (fuel idx total : Nat) (api : Api) (id : String) (action : Action)
    (st : St) (hidx : idx ≠ total) :
    ((now - mtime ≤ (match action.maxage with
        | some m => m
        | none => MAXAGE_DEF)) →
      runAction ext now fuel (some (mtime, content)) idx total api id action st =
        .ok (api,
          { store := restore id content st.store
            calls := st.calls
            sent := st.sent }, none)) ∧
    ((now - mtime > (match action.maxage with
        | some m => m
        | none => MAXAGE_DEF)) →
      runAction ext now fuel (some (mtime, content)) idx total api id action st =
        runAction ext now fuel none idx total api id action st) ∧
    (runAction ext now fuel none idx total api id action st =
      Except.map (fun r => (r.2.1, r.2.2, some r.1))
        (fetch ext fuel id api action st)) := by
  refine ⟨fun hfresh => ?_, fun hstale => ?_, ?_⟩
  · simp only [runAction, if_pos hfresh, if_neg hidx]
    rfl
  · have hM : ¬(now - mtime ≤ (match action.maxage with
        | some m => m
        | none => MAXAGE_DEF)) := by omega
    simp only [runAction, if_neg hM]
  · simp only [runAction]
    cases hf : fetch ext fuel id api action st with
    | error e => simp [hf, bind, Except.bind, Except.map]
    | ok r => simp [hf, bind, Except.bind, pure, Except.pure, Except.map]

/-- C5 witness: a fresh entry restores with no network call; a missing
entry takes the fetch path. -/
theorem C5_cache_witness :
    ((0 : Int) - 0 ≤ (match (none : Option Int) with
      | some m => m
      | none => MAXAGE_DEF)) ∧
    runAction plainExt 0 1 (some (0, .num 7)) 0 1
        { base := "b", params := none, headers := none } "a"
        { method := "get", endpoint := "e", params := none, headers := none,
          json := none, maxage := none, paginate := none }
        ⟨[], 0, []⟩ =
      .ok ({ base := "b", params := none, headers := none },
        { store := restore "a" (.num 7) []
          calls := 0
          sent := [] }, none) ∧
    runAction plainExt 0 1 none 0 1
        { base := "b", params := none, headers := none } "a"
        { method := "get", endpoint := "e", params := none, headers := none,
          json := none, maxage := none, paginate := none }
        ⟨[], 0, []⟩ =
      Except.map (fun r => (r.2.1, r.2.2, some r.1))
        (fetch plainExt 1 "a"
          { base := "b", params := none, headers := none }
          { method := "get", endpoint := "e", params := none, headers := none,
            json := none, maxage := none, paginate := none }
          ⟨[], 0, []⟩) := by
  refine ⟨by decide, ?_, ?_⟩
  · exact (C5_cache_freshness plainExt 0 0 (.num 7) 1 0 1
      { base := "b", params := none, headers := none } "a"
      { method := "get", endpoint := "e", params := none, headers := none,
        json := none, maxage := none, paginate := none }
      ⟨[], 0, []⟩ (by decide)).1 (by decide)
  · exact (C5_cache_freshness plainExt 0 0 (.num 7) 1 0 1
      { base := "b", params := none, headers := none } "a"
      { method := "get", endpoint := "e", params := none, headers := none,
        json := none, maxage := none, paginate := none }
      ⟨[], 0, []⟩ (by decide)).2.2

/-- C10: the Data Store is one process-wide mapping keyed by action id
alone and is never cleared between units.  First, generally: a run over
any unit list leaves every store entry untouched whose key is not a
flow entry of some executed unit — after an action commits, its entry
stays visible to every later unit.  Second, concretely: two units named
`u1` and `u2` each running an action with the *same* id `a` (restored
from their per-unit caches holding `1` and `2`) end with the single
entry `a = 2`: the later unit overwrote the earlier unit's value
because the store key is the action id, not the (unit, action) pair. -/
theorem C10_store_shared_across_units :
    (∀ (ext : Ext) (now : Int) (fuel : Nat)
        (cache : String → String → Option (Int × Value))
        (us : List (String × UnitCfg)) (st st2 : St) (id : String),
      runUnits ext now fuel cache us st = .ok st2 →
      id ∉ flowIds us →
      lookupA st2.store id = lookupA st.store id) ∧
    runUnits plainExt 0 1
        (fun u _ => if u = "u1" then some (0, .num 1) else some (0, .num 2))
        [("u1", ⟨plainApi, ["a"], [("a", plainAction)]⟩),
         ("u2", ⟨plainApi, ["a"], [("a", plainAction)]⟩)]
        ⟨[], 0, []⟩ =
      .ok ⟨[("a", .num 2)], 0, []⟩ := by
  refine ⟨fun ext now fuel cache us st st2 id h hm =>
    runUnits_store_frame ext now fuel cache us st st2 h id hm, ?_⟩
  simp +decide [runUnits, runUnit, runFlow, runAction, restore, lookupA, setA,
    MAXAGE_DEF, bind, Except.bind, pure, Except.pure]

/-- C10 witness: the frame conjunct applied at the concrete two-unit
run — an id executed by no unit keeps its pre-run store entry. -/
theorem C10_store_witness :
    lookupA
      ([("a", Value.num 2)] : Store) "b" = lookupA ([] : Store) "b" := by
  have hrun : runUnits plainExt 0 1
      (fun u _ => if u = "u1" then some (0, .num 1) else some (0, .num 2))
      [("u1", ⟨plainApi, ["a"], [("a", plainAction)]⟩)]
      ⟨[], 0, []⟩ =
      .ok ⟨[("a", .num 1)], 0, []⟩ := by
    simp +decide [runUnits, runUnit, runFlow, runAction, restore, lookupA, setA,
      MAXAGE_DEF, bind, Except.bind, pure, Except.pure]
  have h := C10_store_shared_across_units.1 plainExt 0 1
    (fun u _ => if u = "u1" then some (0, .num 1) else some (0, .num 2))
    [("u1", ⟨plainApi, ["a"], [("a", plainAction)]⟩)]
    ⟨[], 0, []⟩ ⟨[("a", .num 1)], 0, []⟩ "b" hrun (by decide)
  simpa using h

end Restrip
